import Mathlib

/-!
# kerfuffle/main.c : the runtime bootstrap

A shallow embedding of `main.c` (the host side of a compiled program): the
three procedures it defines (`error_exit`, `raise_error`, `main`) and the
globals it declares, as functions on an explicit process state.

What `main.c` only declares through its headers (`values.h`, `print.h`,
`runtime.h`, `errors.h`) or links against (the compiled `entry`) is collected
in `Externals` and every theorem quantifies over it.

Conventions.
* `State.stdout` is the sequence of bytes written to standard output so far.
  The C library flushes the stream both in `exit` and on return from `main`, so
  at the end of a run this field is what the process has output.
* `State.trace` is a ghost log of the calls made, in execution order.  It is
  only ever appended to and never read by the program.
* Contents of heap cells are not modelled: no statement of `main.c` reads or
  writes a cell.
-/

namespace Kerfuffle

/-- The word type `val_t` of `values.h`; only equality of values is used. -/
abbrev val_t := Int

/-- The enumeration `type_t` of `values.h` (a C `enum`, hence an integer). -/
abbrev type_t := Int

/-- A value of type `void (*)()`: the address of a procedure. -/
inductive FnPtr where
  /-- the null pointer, which is what a global holds before assignment -/
  | null
  /-- the address of `error_exit` -/
  | error_exit
  /-- the address of `default_type_handler` -/
  | default_type_handler
  /-- the address of any other procedure of the program image -/
  | other (addr : Nat)
  deriving DecidableEq, Repr

/-- A value of type `FILE*` as far as `main.c` distinguishes them. -/
inductive Stream where
  | null
  | stdin
  | stdout
  deriving DecidableEq, Repr

/-- Calls recorded in the ghost log. -/
inductive Event where
  /-- the call `malloc(bytes)` returned `p` (`none` is `NULL`) -/
  | malloc (bytes : Nat) (p : Option Nat)
  /-- the call `entry(arena)` starts; the two handler slots as they are at that moment -/
  | entry (arena : Option Nat) (error_handler type_error_handler : FnPtr)
  /-- the compiled program wrote one byte to standard output -/
  | write_byte (c : Char)
  /-- the compiled program assigned to the global `error_handler` -/
  | set_error_handler (p : FnPtr)
  /-- the procedure `raise_error` is entered -/
  | raise_error
  /-- the procedure `error_exit` is entered -/
  | error_exit
  /-- a procedure other than `error_exit` is entered through a pointer -/
  | handler (p : FnPtr)
  /-- the call `print_result(v)` -/
  | print_result (v : val_t)
  /-- the call `val_typeof(v)` -/
  | val_typeof (v : val_t)
  /-- the call `putchar(c)` made by `main` -/
  | putchar (c : Char)
  /-- the call `free(p)` -/
  | free (p : Option Nat)
  /-- the call `exit(status)` -/
  | exit (status : Int)
  deriving DecidableEq, Repr

/-- The globals of `main.c`, the standard output stream and the ghost log. -/
structure State where
  /-- the global `FILE* in;` -/
  in_ : Stream
  /-- the global `FILE* out;` -/
  out : Stream
  /-- the global `void (*error_handler)();` -/
  error_handler : FnPtr
  /-- the global `void (*type_error_handler)();` -/
  type_error_handler : FnPtr
  /-- the global `val_t *heap;` (`none` is `NULL`, `some a` a block at address `a`) -/
  heap : Option Nat
  /-- bytes written to standard output so far -/
  stdout : List Char
  /-- ghost log of calls -/
  trace : List Event
  deriving DecidableEq, Repr

/-- The state in which the C runtime calls `main`: globals without an
initialiser are zero, nothing has been written. -/
def process_start : State :=
  { in_ := .null, out := .null, error_handler := .null, type_error_handler := .null,
    heap := none, stdout := [], trace := [] }

/-- How a call ends. -/
inductive Outcome (α : Type) where
  /-- the callee returned `a` to its caller -/
  | ret (a : α) (s : State)
  /-- the process was terminated by `exit(status)` -/
  | exit (status : Int) (s : State)
  /-- a call through a null function pointer (undefined behaviour) -/
  | fault (s : State)
  deriving DecidableEq, Repr

/-- The state in which a call ended. -/
def Outcome.state {α : Type} : Outcome α → State
  | .ret _ s => s
  | .exit _ s => s
  | .fault s => s

/-- The exit status of the process when the outcome is that of `main`. -/
def Outcome.status : Outcome Int → Option Int
  | .ret r _ => some r
  | .exit n _ => some n
  | .fault _ => none

/-- Modelled from the spec: the body of a zero-argument procedure that is not
defined in `main.c` (the default type handler of `errors.h`, or a replacement
handler).  It may write to standard output and then either returns or
terminates the process. -/
inductive Proc where
  | ret
  | exit (status : Int)
  | write (c : Char) (k : Proc)
  deriving DecidableEq, Repr

/-- Modelled from the spec: the compiled entry computation, which is linked in
and not part of the sources.  It returns exactly one value, may write to standard
output, may call `raise_error` at any point, and, the handler slot being a
global, may assign to it. -/
inductive Prog where
  | ret (v : val_t)
  | write_byte (c : Char) (k : Prog)
  | set_error_handler (p : FnPtr) (k : Prog)
  | raise_error (k : Prog)
  deriving DecidableEq, Repr

/-- An integer type of C, as far as arithmetic depends on it. -/
structure CIntType where
  /-- width in bits -/
  bits : Nat
  /-- whether the type is signed -/
  signed : Bool
  deriving DecidableEq, Repr

/-- The type of the product of a constant of type `int` (32 bits, signed) with
an operand of type `t`, by the usual arithmetic conversions: an operand
narrower than `int` is promoted to `int`, otherwise the `int` constant is
converted to the type of the operand. -/
def CIntType.times_int (t : CIntType) : CIntType :=
  if t.bits < 32 then { bits := 32, signed := true } else t

/-- Can the type hold the number `n`? -/
def CIntType.represents (t : CIntType) (n : Int) : Bool :=
  if t.signed then
    decide (-(Int.ofNat (2 ^ (t.bits - 1))) ≤ n ∧ n < Int.ofNat (2 ^ (t.bits - 1)))
  else
    decide (0 ≤ n ∧ n < Int.ofNat (2 ^ t.bits))

/-- The value an arithmetic result `n` has in the type: `n` itself when the
type can hold it, and `n` reduced modulo `2 ^ bits` into the range of the type
otherwise (for a signed type the C standard leaves the overflow undefined;
this is the value compilers produce). -/
def CIntType.wrap (t : CIntType) (n : Int) : Int :=
  if t.signed then
    (n + Int.ofNat (2 ^ (t.bits - 1))) % Int.ofNat (2 ^ t.bits) - Int.ofNat (2 ^ (t.bits - 1))
  else
    n % Int.ofNat (2 ^ t.bits)

/-- Conversion of an integer to `size_t` (64 bits, unsigned). -/
def to_size_t (n : Int) : Nat :=
  (n % Int.ofNat (2 ^ 64)).toNat

/-- Everything `main.c` uses and does not define. -/
structure Externals where
  /-- the constant `heap_size` of `runtime.h`, in words -/
  heap_size : Int
  /-- the integer type that `runtime.h` gives `heap_size` -/
  heap_size_type : CIntType
  /-- the tag `T_VOID` of `values.h` -/
  T_VOID : type_t
  /-- the function `val_typeof` of `values.h` -/
  val_typeof : val_t → type_t
  /-- what `print_result` of `print.h` writes for a value -/
  print_result : val_t → List Char
  /-- body of `default_type_handler` of `errors.h` -/
  default_type_handler : Proc
  /-- body of the procedure at any other address -/
  code : Nat → Proc
  /-- the compiled program, as a function of the arena it is handed -/
  entry : Option Nat → Prog
  /-- the function `malloc` of the C library: the block obtained for a request, or `NULL` -/
  malloc : Nat → Option Nat

/-- Append one event to the ghost log. -/
def State.log (s : State) (e : Event) : State :=
  { s with trace := s.trace ++ [e] }

/-- Append bytes to standard output. -/
def State.write (s : State) (cs : List Char) : State :=
  { s with stdout := s.stdout ++ cs }

/-- The function `exit` of the C library. -/
def exit {α : Type} (status : Int) (s : State) : Outcome α :=
  .exit status (s.log (.exit status))

/-- Run the body of a procedure not defined in `main.c`. -/
def run_proc : Proc → State → Outcome Unit
  | .ret, s => .ret () s
  | .exit n, s => exit n s
  | .write c k, s => run_proc k (s.write [c])

/-- The default handler of general faults.
```c
void error_exit()
{
  printf("err\n");
  exit(1);
}
```
-/
def error_exit (s : State) : Outcome Unit :=
  let s := s.log .error_exit
  let s := s.write ['e', 'r', 'r', '\n']
  exit 1 s

/-- A call `p()` through a function pointer. -/
def call (E : Externals) (p : FnPtr) (s : State) : Outcome Unit :=
  match p with
  | .null => .fault s
  | .error_exit => error_exit s
  | .default_type_handler => run_proc E.default_type_handler (s.log (.handler p))
  | .other a => run_proc (E.code a) (s.log (.handler p))

/-- Signal a general fault through the handler slot.
```c
void raise_error()
{
  return error_handler();
}
```
-/
def raise_error (E : Externals) (s : State) : Outcome Unit :=
  let s := s.log .raise_error
  call E s.error_handler s

/-- Run the compiled program. -/
def exec (E : Externals) : Prog → State → Outcome val_t
  | .ret v, s => .ret v s
  | .write_byte c k, s => exec E k ((s.log (.write_byte c)).write [c])
  | .set_error_handler p k, s =>
      exec E k { s.log (.set_error_handler p) with error_handler := p }
  | .raise_error k, s =>
      match raise_error E s with
      | .ret _ s1 => exec E k s1
      | .exit n s1 => .exit n s1
      | .fault s1 => .fault s1

/-- The argument of `malloc` in `main`: the product `8 * heap_size`, computed in
the type that the `int` constant 8 and `heap_size` have in common, and then
converted to the parameter type `size_t` of `malloc`. -/
def heap_bytes (E : Externals) : Nat :=
  to_size_t (E.heap_size_type.times_int.wrap (8 * E.heap_size))

/-- The statements of `main` before the call of `entry`:
```c
  in = stdin;
  out = stdout;
  error_handler = &error_exit;
  type_error_handler = &default_type_handler;
  heap = malloc(8 * heap_size);
```
-/
def main_setup (E : Externals) (s : State) : State :=
  let s := { s with in_ := .stdin }
  let s := { s with out := .stdout }
  let s := { s with error_handler := .error_exit }
  let s := { s with type_error_handler := .default_type_handler }
  let p := E.malloc (heap_bytes E)
  let s := { s.log (.malloc (heap_bytes E) p) with heap := p }
  s

/-- The call `entry(heap)` of `main`. -/
def call_entry (E : Externals) (s : State) : Outcome val_t :=
  exec E (E.entry s.heap) (s.log (.entry s.heap s.error_handler s.type_error_handler))

/-- The program entry point.
```c
int main(int argc, char** argv)
{
  [main_setup]
  val_t result;
  result = entry(heap);
  print_result(result);
  if (val_typeof(result) != T_VOID)
    putchar('\n');
  free(heap);
  return 0;
}
```
-/
def main (E : Externals) (_argc : Int) (_argv : List String) (s : State) : Outcome Int :=
  let s := main_setup E s
  match call_entry E s with
  | .exit n s => .exit n s
  | .fault s => .fault s
  | .ret result s =>
    let s := (s.log (.print_result result)).write (E.print_result result)
    let s := s.log (.val_typeof result)
    let s := if E.val_typeof result ≠ E.T_VOID then (s.log (.putchar '\n')).write ['\n'] else s
    let s := s.log (.free s.heap)
    .ret 0 s

/-! ## Classification of logged events -/

/-- Events that only the compiled program and the handlers it reaches produce. -/
def Event.by_entry : Event → Bool
  | .write_byte _ => true
  | .set_error_handler _ => true
  | .raise_error => true
  | .error_exit => true
  | .handler _ => true
  | .exit _ => true
  | _ => false

/-- Is this event a call of `malloc`? -/
def Event.is_malloc : Event → Bool
  | .malloc _ _ => true
  | _ => false

/-- Is this event the invocation of `entry`? -/
def Event.is_entry : Event → Bool
  | .entry _ _ _ => true
  | _ => false

/-- Is this event a write by the compiled program? -/
def Event.is_write_byte : Event → Bool
  | .write_byte _ => true
  | _ => false

/-- Is this event an assignment to the `error_handler` slot by the compiled program? -/
def Event.is_set_error_handler : Event → Bool
  | .set_error_handler _ => true
  | _ => false

/-- Is this event a call of `error_exit`? -/
def Event.is_error_exit : Event → Bool
  | .error_exit => true
  | _ => false

/-- Is this event a call of `print_result`? -/
def Event.is_print_result : Event → Bool
  | .print_result _ => true
  | _ => false

/-- Is this event a call of `val_typeof`? -/
def Event.is_val_typeof : Event → Bool
  | .val_typeof _ => true
  | _ => false

/-- Is this event a call of `putchar` by `main`? -/
def Event.is_putchar : Event → Bool
  | .putchar _ => true
  | _ => false

/-- Is this event a call of `free`? -/
def Event.is_free : Event → Bool
  | .free _ => true
  | _ => false

/-! ## The contract of handlers -/

/-- Does the body never return to its caller, that is, does it end in `exit`? -/
def Proc.diverts : Proc → Bool
  | .ret => false
  | .exit _ => true
  | .write _ k => k.diverts

/-- Does the procedure at `p`, when it is one that `main.c` does not define,
honour the contract of handlers, which is not to return?  Nothing is asked of
`error_exit`, whose body is in `main.c`, nor of the null pointer, at which
there is no procedure. -/
def Externals.diverts (E : Externals) : FnPtr → Bool
  | .null => true
  | .error_exit => true
  | .default_type_handler => E.default_type_handler.diverts
  | .other a => (E.code a).diverts

/-! ## A concrete program image for the examples -/

/-- A program image: the heap has 10000 words, an `int` constant; the value
`0` is the void value and is rendered as `_`, every other value is rendered as
`7`; the procedure at every other address returns at once. -/
def image (entry : Prog) (malloc : Nat → Option Nat) : Externals :=
  { heap_size := 10000
    heap_size_type := { bits := 32, signed := true }
    T_VOID := 0
    val_typeof := fun v => if v = 0 then 0 else 1
    print_result := fun v => if v = 0 then ['_'] else ['7']
    default_type_handler := .exit 1
    code := fun _ => .ret
    entry := fun _ => entry
    malloc := malloc }

/-- The example image with handlers that honour their contract: the default
type handler ends the process with status 1, the procedure at every other
address writes `h` and ends the process with status 2. -/
def strict_image (entry : Prog) (malloc : Nat → Option Nat) : Externals :=
  { image entry malloc with code := fun _ => .write 'h' (.exit 2) }

/-- An allocator that always succeeds. -/
def malloc_ok : Nat → Option Nat := fun _ => some 4096

/-- An allocator that always fails. -/
def malloc_fail : Nat → Option Nat := fun _ => none

/-! ## Basic facts about the procedures -/

@[simp]
theorem State.log_trace (s : State) (e : Event) : (s.log e).trace = s.trace ++ [e] := rfl

@[simp]
theorem State.log_stdout (s : State) (e : Event) : (s.log e).stdout = s.stdout := rfl

@[simp]
theorem State.log_heap (s : State) (e : Event) : (s.log e).heap = s.heap := rfl

@[simp]
theorem State.log_error_handler (s : State) (e : Event) :
    (s.log e).error_handler = s.error_handler := rfl

@[simp]
theorem State.log_type_error_handler (s : State) (e : Event) :
    (s.log e).type_error_handler = s.type_error_handler := rfl

@[simp]
theorem State.write_trace (s : State) (cs : List Char) : (s.write cs).trace = s.trace := rfl

@[simp]
theorem State.write_stdout (s : State) (cs : List Char) :
    (s.write cs).stdout = s.stdout ++ cs := rfl

@[simp]
theorem State.write_heap (s : State) (cs : List Char) : (s.write cs).heap = s.heap := rfl

@[simp]
theorem State.write_error_handler (s : State) (cs : List Char) :
    (s.write cs).error_handler = s.error_handler := rfl

/-- A procedure body logs nothing but a possible final `exit`. -/
theorem run_proc_trace (b : Proc) (s : State) :
    ∃ t, (run_proc b s).state.trace = s.trace ++ t ∧ ∀ e ∈ t, ∃ n, e = Event.exit n := by
  induction b generalizing s with
  | ret => exact ⟨[], by simp [run_proc, Outcome.state]⟩
  | exit n => exact ⟨[.exit n], by simp [run_proc, exit, Outcome.state]⟩
  | write c k ih =>
    obtain ⟨t, ht, hall⟩ := ih (s.write [c])
    exact ⟨t, by simpa [run_proc] using ht, hall⟩

/-- A procedure body leaves the global `heap` alone. -/
theorem run_proc_heap (b : Proc) (s : State) : (run_proc b s).state.heap = s.heap := by
  induction b generalizing s with
  | ret => rfl
  | exit n => rfl
  | write c k ih => simpa [run_proc] using ih (s.write [c])

/-- The default handler always terminates the process with status 1, having
appended the failure token to what was written before. -/
theorem error_exit_eq (s : State) :
    error_exit s = .exit 1
      { s with stdout := s.stdout ++ ['e', 'r', 'r', '\n'],
               trace := s.trace ++ [.error_exit, .exit 1] } := by
  simp [error_exit, exit, State.log, State.write]

/-- Events logged by a call through a pointer come from the callee. -/
theorem call_trace (E : Externals) (p : FnPtr) (s : State) :
    ∃ t, (call E p s).state.trace = s.trace ++ t ∧ ∀ e ∈ t, e.by_entry = true := by
  cases p with
  | null => exact ⟨[], by simp [call, Outcome.state]⟩
  | error_exit =>
    exact ⟨[.error_exit, .exit 1], by simp [call, error_exit_eq, Outcome.state, Event.by_entry]⟩
  | default_type_handler =>
    obtain ⟨t, ht, hall⟩ := run_proc_trace E.default_type_handler
      (s.log (.handler .default_type_handler))
    refine ⟨.handler .default_type_handler :: t, by simpa [call] using ht, ?_⟩
    intro e he
    rcases List.mem_cons.mp he with rfl | he
    · rfl
    · obtain ⟨n, rfl⟩ := hall e he
      rfl
  | other a =>
    obtain ⟨t, ht, hall⟩ := run_proc_trace (E.code a) (s.log (.handler (.other a)))
    refine ⟨.handler (.other a) :: t, by simpa [call] using ht, ?_⟩
    intro e he
    rcases List.mem_cons.mp he with rfl | he
    · rfl
    · obtain ⟨n, rfl⟩ := hall e he
      rfl

/-- A call through a pointer leaves the global `heap` alone. -/
theorem call_heap (E : Externals) (p : FnPtr) (s : State) : (call E p s).state.heap = s.heap := by
  cases p with
  | null => rfl
  | error_exit => simp [call, error_exit_eq, Outcome.state]
  | default_type_handler => simp [call, run_proc_heap]
  | other a => simp [call, run_proc_heap]

/-- Events logged by `raise_error` come from it and from the handler. -/
theorem raise_error_trace (E : Externals) (s : State) :
    ∃ t, (raise_error E s).state.trace = s.trace ++ t ∧ ∀ e ∈ t, e.by_entry = true := by
  obtain ⟨t, ht, hall⟩ := call_trace E s.error_handler (s.log .raise_error)
  refine ⟨.raise_error :: t, by simpa [raise_error] using ht, ?_⟩
  intro e he
  rcases List.mem_cons.mp he with rfl | he
  · rfl
  · exact hall e he

/-- The handler reached by `raise_error` leaves the global `heap` alone. -/
theorem raise_error_heap (E : Externals) (s : State) : (raise_error E s).state.heap = s.heap := by
  simp [raise_error, call_heap]

/-- The compiled program only appends to the log, and only events of its own. -/
theorem exec_trace (E : Externals) (p : Prog) (s : State) :
    ∃ t, (exec E p s).state.trace = s.trace ++ t ∧ ∀ e ∈ t, e.by_entry = true := by
  induction p generalizing s with
  | ret v => exact ⟨[], by simp [exec, Outcome.state]⟩
  | write_byte c k ih =>
    obtain ⟨t, ht, hall⟩ := ih ((s.log (.write_byte c)).write [c])
    refine ⟨.write_byte c :: t, by simpa [exec] using ht, ?_⟩
    intro e he
    rcases List.mem_cons.mp he with rfl | he
    · rfl
    · exact hall e he
  | set_error_handler p k ih =>
    obtain ⟨t, ht, hall⟩ := ih { s.log (.set_error_handler p) with error_handler := p }
    refine ⟨.set_error_handler p :: t, by simpa [exec] using ht, ?_⟩
    intro e he
    rcases List.mem_cons.mp he with rfl | he
    · rfl
    · exact hall e he
  | raise_error k ih =>
    obtain ⟨t, ht, hall⟩ := raise_error_trace E s
    cases h : raise_error E s with
    | ret u s1 =>
      rw [h] at ht
      obtain ⟨t2, ht2, hall2⟩ := ih s1
      refine ⟨t ++ t2, ?_, ?_⟩
      · simp only [exec, h, ht2]
        simp only [Outcome.state] at ht
        rw [ht, List.append_assoc]
      · intro e he
        rcases List.mem_append.mp he with he | he
        · exact hall e he
        · exact hall2 e he
    | exit n s1 =>
      rw [h] at ht
      exact ⟨t, by simpa [exec, h] using ht, hall⟩
    | fault s1 =>
      rw [h] at ht
      exact ⟨t, by simpa [exec, h] using ht, hall⟩

/-- The compiled program leaves the global `heap` alone. -/
theorem exec_heap (E : Externals) (p : Prog) (s : State) : (exec E p s).state.heap = s.heap := by
  induction p generalizing s with
  | ret v => rfl
  | write_byte c k ih => simpa [exec] using ih ((s.log (.write_byte c)).write [c])
  | set_error_handler p k ih =>
    simpa [exec] using ih { s.log (.set_error_handler p) with error_handler := p }
  | raise_error k ih =>
    have hh := raise_error_heap E s
    cases h : raise_error E s with
    | ret u s1 =>
      rw [h] at hh
      simp only [exec, h]
      rw [ih s1]
      exact hh
    | exit n s1 =>
      rw [h] at hh
      simpa [exec, h] using hh
    | fault s1 =>
      rw [h] at hh
      simpa [exec, h] using hh

/-- A filter that rejects the compiled program's events finds none among them. -/
theorem filter_by_entry (f : Event → Bool) (hf : ∀ e, e.by_entry = true → f e = false)
    (t : List Event) (ht : ∀ e ∈ t, e.by_entry = true) : t.filter f = [] := by
  rw [List.filter_eq_nil_iff]
  intro e he
  simp [hf e (ht e he)]

/-- The state reached by the statements of `main` before the call of `entry`,
when the process has just started. -/
theorem main_setup_start (E : Externals) :
    main_setup E process_start =
      { in_ := .stdin, out := .stdout, error_handler := .error_exit,
        type_error_handler := .default_type_handler, heap := E.malloc (heap_bytes E),
        stdout := [], trace := [.malloc (heap_bytes E) (E.malloc (heap_bytes E))] } := rfl

/-- The log after the call of `entry`: the invocation, then the program's own events. -/
theorem call_entry_trace (E : Externals) (s : State) :
    ∃ t, (call_entry E s).state.trace
        = s.trace ++ .entry s.heap s.error_handler s.type_error_handler :: t
      ∧ ∀ e ∈ t, e.by_entry = true := by
  obtain ⟨t, ht, hall⟩ := exec_trace E (E.entry s.heap)
    (s.log (.entry s.heap s.error_handler s.type_error_handler))
  exact ⟨t, by simpa [call_entry] using ht, hall⟩

/-- The call of `entry` leaves the global `heap` alone. -/
theorem call_entry_heap (E : Externals) (s : State) : (call_entry E s).state.heap = s.heap := by
  simp [call_entry, exec_heap]

/-- What `main` does once `entry` has returned the value `v`. -/
theorem main_of_ret (E : Externals) (argc : Int) (argv : List String) (s : State)
    (v : val_t) (s1 : State) (h : call_entry E (main_setup E s) = .ret v s1) :
    main E argc argv s = .ret 0
      { s1 with
        stdout := s1.stdout ++ E.print_result v
          ++ (if E.val_typeof v ≠ E.T_VOID then ['\n'] else []),
        trace := s1.trace ++ [.print_result v, .val_typeof v]
          ++ (if E.val_typeof v ≠ E.T_VOID then [.putchar '\n'] else [])
          ++ [.free s1.heap] } := by
  unfold main
  simp only [h]
  by_cases ht : E.val_typeof v = E.T_VOID <;> simp [ht, State.log, State.write]

/-- When `entry` ends the process, so does `main`, with nothing added. -/
theorem main_of_exit (E : Externals) (argc : Int) (argv : List String) (s : State)
    (n : Int) (s1 : State) (h : call_entry E (main_setup E s) = .exit n s1) :
    main E argc argv s = .exit n s1 := by
  unfold main
  simp only [h]

/-- When `entry` faults, so does `main`, with nothing added. -/
theorem main_of_fault (E : Externals) (argc : Int) (argv : List String) (s : State)
    (s1 : State) (h : call_entry E (main_setup E s) = .fault s1) :
    main E argc argv s = .fault s1 := by
  unfold main
  simp only [h]

/-- The log of a run of `main` starts with the log of its call of `entry`. -/
theorem main_trace_extends (E : Externals) (argc : Int) (argv : List String) (s : State) :
    ∃ t, (main E argc argv s).state.trace
      = (call_entry E (main_setup E s)).state.trace ++ t := by
  cases h : call_entry E (main_setup E s) with
  | ret v s1 => exact ⟨_, by rw [main_of_ret E argc argv s v s1 h]; simp [Outcome.state]; rfl⟩
  | exit n s1 => exact ⟨[], by rw [main_of_exit E argc argv s n s1 h]; simp⟩
  | fault s1 => exact ⟨[], by rw [main_of_fault E argc argv s s1 h]; simp⟩

/-- While the default handler is in the slot and the program does not assign to
it, a program that reaches `raise_error` ends the process with status 1. -/
theorem exec_default (E : Externals) (p : Prog) (s : State) (t : List Event)
    (hs : s.error_handler = .error_exit)
    (ht : (exec E p s).state.trace = s.trace ++ t)
    (hr : Event.raise_error ∈ t)
    (hset : t.filter Event.is_set_error_handler = []) :
    ∃ s1, exec E p s = .exit 1 s1 := by
  induction p generalizing s t with
  | ret v =>
    simp [exec, Outcome.state] at ht
    subst ht
    simp at hr
  | write_byte c k ih =>
    obtain ⟨t2, ht2, -⟩ := exec_trace E k ((s.log (.write_byte c)).write [c])
    simp only [exec] at ht ⊢
    rw [ht2] at ht
    simp at ht
    subst ht
    simp [Event.is_write_byte] at hr
    simp [List.filter_cons, Event.is_set_error_handler] at hset
    exact ih _ t2 (by simpa using hs) ht2 hr (by simpa using hset)
  | set_error_handler p k ih =>
    obtain ⟨t2, ht2, -⟩ := exec_trace E k { s.log (.set_error_handler p) with error_handler := p }
    simp only [exec] at ht
    rw [ht2] at ht
    simp at ht
    subst ht
    simp [List.filter_cons, Event.is_set_error_handler] at hset
  | raise_error k _ =>
    simp [exec, raise_error, hs, call, error_exit_eq]

/-- Before `entry` returns the log holds the allocation, the invocation and the
program's own events: a filter that rejects all of these finds nothing. -/
theorem call_entry_filter (E : Externals) (f : Event → Bool)
    (hf : ∀ e, e.by_entry = true → f e = false)
    (hm : ∀ n p, f (.malloc n p) = false) (he : ∀ a h1 h2, f (.entry a h1 h2) = false) :
    (call_entry E (main_setup E process_start)).state.trace.filter f = [] := by
  obtain ⟨t, ht, hall⟩ := call_entry_trace E (main_setup E process_start)
  rw [ht, main_setup_start]
  simp [List.filter_cons, hm, he, filter_by_entry f hf t hall]

/-- The log of every run of `main` from process start: the allocation, the
invocation of `entry`, the program's own events and then either nothing (the
process ended inside `entry`) or the calls `main` makes after `entry` returned. -/
theorem main_trace_shape (E : Externals) (argc : Int) (argv : List String) :
    ∃ t fin, (main E argc argv process_start).state.trace
        = .malloc (heap_bytes E) (E.malloc (heap_bytes E))
          :: .entry (E.malloc (heap_bytes E)) .error_exit .default_type_handler :: (t ++ fin)
      ∧ (∀ e ∈ t, e.by_entry = true)
      ∧ (fin = [] ∨ ∃ v, fin = [.print_result v, .val_typeof v]
            ++ (if E.val_typeof v ≠ E.T_VOID then [.putchar '\n'] else [])
            ++ [.free (E.malloc (heap_bytes E))]) := by
  obtain ⟨t, ht, hall⟩ := call_entry_trace E (main_setup E process_start)
  have hh := call_entry_heap E (main_setup E process_start)
  rw [main_setup_start] at ht hh
  simp only [List.singleton_append] at ht
  cases h : call_entry E (main_setup E process_start) with
  | ret v s1 =>
    rw [main_setup_start] at h
    rw [h] at ht hh
    simp only [Outcome.state] at ht hh
    refine ⟨t, _, ?_, hall, Or.inr ⟨v, rfl⟩⟩
    rw [main_of_ret E argc argv process_start v s1 h]
    simp [Outcome.state, ht, hh]
  | exit n s1 =>
    rw [main_setup_start] at h
    rw [h] at ht
    refine ⟨t, [], ?_, hall, Or.inl rfl⟩
    rw [main_of_exit E argc argv process_start n s1 h]
    simpa using ht
  | fault s1 =>
    rw [main_setup_start] at h
    rw [h] at ht
    refine ⟨t, [], ?_, hall, Or.inl rfl⟩
    rw [main_of_fault E argc argv process_start s1 h]
    simpa using ht

/-- The invocations of `entry` in a run of `main`: exactly one, with the block
`malloc` returned and both default handlers in place. -/
theorem main_filter_entry (E : Externals) (argc : Int) (argv : List String) :
    (main E argc argv process_start).state.trace.filter Event.is_entry
      = [.entry (E.malloc (heap_bytes E)) .error_exit .default_type_handler] := by
  obtain ⟨t, fin, ht, hall, hfin⟩ := main_trace_shape E argc argv
  have hby : ∀ e : Event, e.by_entry = true → e.is_entry = false := by
    intro e; cases e <;> simp [Event.by_entry, Event.is_entry]
  rw [ht]
  rcases hfin with rfl | ⟨v, rfl⟩
  · simp [List.filter_cons, Event.is_entry, filter_by_entry _ hby t hall]
  · by_cases hv : E.val_typeof v = E.T_VOID <;>
      simp [List.filter_cons, Event.is_entry, filter_by_entry _ hby t hall, hv]

/-- The calls of `malloc` in a run of `main`: exactly one. -/
theorem main_filter_malloc (E : Externals) (argc : Int) (argv : List String) :
    (main E argc argv process_start).state.trace.filter Event.is_malloc
      = [.malloc (heap_bytes E) (E.malloc (heap_bytes E))] := by
  obtain ⟨t, fin, ht, hall, hfin⟩ := main_trace_shape E argc argv
  have hby : ∀ e : Event, e.by_entry = true → e.is_malloc = false := by
    intro e; cases e <;> simp [Event.by_entry, Event.is_malloc]
  rw [ht]
  rcases hfin with rfl | ⟨v, rfl⟩
  · simp [List.filter_cons, Event.is_malloc, filter_by_entry _ hby t hall]
  · by_cases hv : E.val_typeof v = E.T_VOID <;>
      simp [List.filter_cons, Event.is_malloc, filter_by_entry _ hby t hall, hv]

/-- A type of at least one bit leaves a number that it can hold unchanged. -/
theorem CIntType.wrap_of_represents (t : CIntType) (n : Int) (hb : 1 ≤ t.bits)
    (h : t.represents n = true) : t.wrap n = n := by
  unfold CIntType.represents at h
  unfold CIntType.wrap
  cases hs : t.signed with
  | true =>
    simp only [hs, if_true, decide_eq_true_eq] at h ⊢
    have h2 : 2 ^ t.bits = 2 * 2 ^ (t.bits - 1) := by
      rw [← pow_succ']
      congr 1
      omega
    rw [h2]
    have h3 : Int.ofNat (2 * 2 ^ (t.bits - 1)) = 2 * Int.ofNat (2 ^ (t.bits - 1)) := by
      simp
    rw [h3]
    have h4 : (n + Int.ofNat (2 ^ (t.bits - 1))) % (2 * Int.ofNat (2 ^ (t.bits - 1)))
        = n + Int.ofNat (2 ^ (t.bits - 1)) :=
      Int.emod_eq_of_lt (by omega) (by omega)
    rw [h4]
    omega
  | false =>
    simp only [hs, Bool.false_eq_true, if_false, decide_eq_true_eq] at h ⊢
    exact Int.emod_eq_of_lt h.1 h.2

/-- When the product `8 * heap_size` is not negative and neither overflows the
type it is computed in nor `size_t`, the request is that product. -/
theorem heap_bytes_of_represents (E : Externals) (n : Nat) (hn : E.heap_size = n)
    (hfit : E.heap_size_type.times_int.represents (8 * n) = true)
    (h64 : 8 * n < 2 ^ 64) : heap_bytes E = 8 * n := by
  have hb : 1 ≤ E.heap_size_type.times_int.bits := by
    unfold CIntType.times_int
    split
    · decide
    · omega
  unfold heap_bytes to_size_t
  rw [hn, CIntType.wrap_of_represents _ _ hb hfit]
  have h1 : ((8 : Int) * (n : Int)) % Int.ofNat (2 ^ 64) = 8 * n :=
    Int.emod_eq_of_lt (by omega) (by simp; omega)
  rw [h1]
  omega

/-- The request of a build in which `heap_size` is the `int` constant
300000000: the product overflows `int`. -/
theorem heap_bytes_overflow_example :
    heap_bytes { image (.ret 7) malloc_ok with heap_size := 300000000 }
      = 18446744071814584320 := by
  decide

/-- A body that ends in `exit` never returns. -/
theorem run_proc_no_return (b : Proc) (hb : b.diverts = true) (s : State) (u : Unit)
    (s1 : State) : run_proc b s ≠ .ret u s1 := by
  induction b generalizing s with
  | ret => simp [Proc.diverts] at hb
  | exit n => simp [run_proc, exit]
  | write c k ih => exact ih (by simpa [Proc.diverts] using hb) (s.write [c])

/-- A call through a pointer to a procedure that honours the contract of
handlers, to `error_exit` or through the null pointer does not return. -/
theorem call_no_return (E : Externals) (p : FnPtr) (hp : E.diverts p = true) (s : State)
    (u : Unit) (s1 : State) : call E p s ≠ .ret u s1 := by
  cases p with
  | null => simp [call]
  | error_exit => simp [call, error_exit_eq]
  | default_type_handler => exact run_proc_no_return _ hp _ u s1
  | other a => exact run_proc_no_return _ hp _ u s1

/-- When every handler honours its contract, `raise_error` does not return. -/
theorem raise_error_no_return (E : Externals) (hE : ∀ p, E.diverts p = true) (s : State)
    (u : Unit) (s1 : State) : raise_error E s ≠ .ret u s1 :=
  call_no_return E _ (hE _) _ u s1

/-- When every handler honours its contract, a compiled program that reaches
`raise_error` does not return. -/
theorem exec_no_return (E : Externals) (hE : ∀ p, E.diverts p = true) (p : Prog) (s : State)
    (t : List Event) (ht : (exec E p s).state.trace = s.trace ++ t)
    (hr : Event.raise_error ∈ t) (v : val_t) (s1 : State) : exec E p s ≠ .ret v s1 := by
  induction p generalizing s t with
  | ret w =>
    simp [exec, Outcome.state] at ht
    subst ht
    simp at hr
  | write_byte c k ih =>
    obtain ⟨t2, ht2, -⟩ := exec_trace E k ((s.log (.write_byte c)).write [c])
    simp only [exec] at ht ⊢
    rw [ht2] at ht
    simp at ht
    subst ht
    simp at hr
    exact ih _ t2 ht2 hr
  | set_error_handler q k ih =>
    obtain ⟨t2, ht2, -⟩ := exec_trace E k { s.log (.set_error_handler q) with error_handler := q }
    simp only [exec] at ht ⊢
    rw [ht2] at ht
    simp at ht
    subst ht
    simp at hr
    exact ih _ t2 ht2 hr
  | raise_error k _ =>
    simp only [exec]
    cases h : raise_error E s with
    | ret u s2 => exact absurd h (raise_error_no_return E hE s u s2)
    | exit n s2 => simp
    | fault s2 => simp

/-! ## The claims -/

/-- C1: when `entry` returns normally a value whose tag is not `T_VOID`, what
`main` adds to standard output is exactly the rendering written by
`print_result` followed by one newline, and `main` returns 0, for every
allocator and every such value. -/
theorem main_output_nonvoid (E : Externals) (argc : Int) (argv : List String)
    (v : val_t) (s1 : State)
    (hret : call_entry E (main_setup E process_start) = .ret v s1)
    (htag : E.val_typeof v ≠ E.T_VOID) :
    ∃ s, main E argc argv process_start = .ret 0 s
      ∧ (main E argc argv process_start).status = some 0
      ∧ s.stdout = s1.stdout ++ E.print_result v ++ ['\n'] := by
  rw [main_of_ret E argc argv process_start v s1 hret]
  exact ⟨_, rfl, rfl, by simp [htag]⟩

/-- Example for C1: a program that returns the non-void value 7 without writing
makes the run output `7` and a newline. -/
theorem main_output_nonvoid_witness :
    ∃ s, main (image (.ret 7) malloc_ok) 0 [] process_start = .ret 0 s
      ∧ (main (image (.ret 7) malloc_ok) 0 [] process_start).status = some 0
      ∧ s.stdout = [] ++ ['7'] ++ ['\n'] :=
  main_output_nonvoid (image (.ret 7) malloc_ok) 0 [] 7 _ rfl (by decide)

/-- C2: when `entry` returns normally a value whose tag is `T_VOID`, what `main`
adds to standard output is exactly the rendering written by `print_result`,
empty or not, with no newline after it, and `main` returns 0. -/
theorem main_output_void (E : Externals) (argc : Int) (argv : List String)
    (v : val_t) (s1 : State)
    (hret : call_entry E (main_setup E process_start) = .ret v s1)
    (htag : E.val_typeof v = E.T_VOID) :
    ∃ s, main E argc argv process_start = .ret 0 s
      ∧ (main E argc argv process_start).status = some 0
      ∧ s.stdout = s1.stdout ++ E.print_result v := by
  rw [main_of_ret E argc argv process_start v s1 hret]
  exact ⟨_, rfl, rfl, by simp [htag]⟩

/-- Example for C2: the void value 0 is rendered as `_` in the example image; the
run outputs that and no newline. -/
theorem main_output_void_witness :
    ∃ s, main (image (.ret 0) malloc_ok) 0 [] process_start = .ret 0 s
      ∧ (main (image (.ret 0) malloc_ok) 0 [] process_start).status = some 0
      ∧ s.stdout = [] ++ ['_'] :=
  main_output_void (image (.ret 0) malloc_ok) 0 [] 0 _ rfl (by decide)

/-- C4: in every run of `main`, whatever `argc`, `argv` and the result of
`malloc`, `entry` is invoked exactly once and at that moment `error_handler`
holds `error_exit` and `type_error_handler` holds `default_type_handler`, neither
of which is the null pointer. -/
theorem main_handlers_installed (E : Externals) (argc : Int) (argv : List String) :
    (main E argc argv process_start).state.trace.filter Event.is_entry
        = [.entry (E.malloc (heap_bytes E)) .error_exit .default_type_handler]
      ∧ (main_setup E process_start).error_handler = .error_exit
      ∧ (main_setup E process_start).type_error_handler = .default_type_handler
      ∧ FnPtr.error_exit ≠ .null ∧ FnPtr.default_type_handler ≠ .null := by
  exact ⟨main_filter_entry E argc argv, rfl, rfl, by decide, by decide⟩

/-- C3: with the handlers installed by `main` still in place, a run in which the
compiled program calls `raise_error` and has written nothing itself outputs
exactly `err` and a newline and ends with exit status 1; neither `print_result`
nor `putchar` is called. -/
theorem main_raise_default (E : Externals) (argc : Int) (argv : List String)
    (hraise : Event.raise_error ∈ (main E argc argv process_start).state.trace)
    (hquiet : (main E argc argv process_start).state.trace.filter Event.is_write_byte = [])
    (hdefault :
      (main E argc argv process_start).state.trace.filter Event.is_set_error_handler = []) :
    ∃ s, main E argc argv process_start = .exit 1 s
      ∧ (main E argc argv process_start).status = some 1
      ∧ s.stdout = ['e', 'r', 'r', '\n']
      ∧ s.trace = [.malloc (heap_bytes E) (E.malloc (heap_bytes E)),
          .entry (E.malloc (heap_bytes E)) .error_exit .default_type_handler,
          .raise_error, .error_exit, .exit 1]
      ∧ s.trace.filter Event.is_print_result = []
      ∧ s.trace.filter Event.is_putchar = [] := by
  obtain ⟨t1, ht1⟩ := main_trace_extends E argc argv process_start
  cases hp : E.entry (E.malloc (heap_bytes E)) with
  | ret v =>
    have hce : call_entry E (main_setup E process_start) = .ret v
        ((main_setup E process_start).log
          (.entry (E.malloc (heap_bytes E)) .error_exit .default_type_handler)) := by
      show exec E (E.entry (E.malloc (heap_bytes E))) _ = _
      rw [hp]; rfl
    rw [main_of_ret E argc argv process_start v _ hce] at hraise
    by_cases hv : E.val_typeof v = E.T_VOID <;>
      simp [Outcome.state, main_setup_start, hv] at hraise
  | write_byte c k =>
    exfalso
    have hce : call_entry E (main_setup E process_start) = exec E k
        ((((main_setup E process_start).log
          (.entry (E.malloc (heap_bytes E)) .error_exit .default_type_handler)).log
            (.write_byte c)).write [c]) := by
      show exec E (E.entry (E.malloc (heap_bytes E))) _ = _
      rw [hp]; rfl
    obtain ⟨t2, ht2, -⟩ := exec_trace E k
      ((((main_setup E process_start).log
          (.entry (E.malloc (heap_bytes E)) .error_exit .default_type_handler)).log
            (.write_byte c)).write [c])
    rw [ht1, hce, ht2] at hquiet
    simp [List.filter_cons, Event.is_write_byte] at hquiet
  | set_error_handler q k =>
    exfalso
    have hce : call_entry E (main_setup E process_start) = exec E k
        { (main_setup E process_start).log
            (.entry (E.malloc (heap_bytes E)) .error_exit .default_type_handler)
              |>.log (.set_error_handler q) with error_handler := q } := by
      show exec E (E.entry (E.malloc (heap_bytes E))) _ = _
      rw [hp]; rfl
    obtain ⟨t2, ht2, -⟩ := exec_trace E k
      { (main_setup E process_start).log
            (.entry (E.malloc (heap_bytes E)) .error_exit .default_type_handler)
              |>.log (.set_error_handler q) with error_handler := q }
    rw [ht1, hce, ht2] at hdefault
    simp [List.filter_cons, Event.is_set_error_handler] at hdefault
  | raise_error k =>
    have hce : call_entry E (main_setup E process_start) = .exit 1
        { in_ := .stdin, out := .stdout, error_handler := .error_exit,
          type_error_handler := .default_type_handler, heap := E.malloc (heap_bytes E),
          stdout := ['e', 'r', 'r', '\n'],
          trace := [.malloc (heap_bytes E) (E.malloc (heap_bytes E)),
            .entry (E.malloc (heap_bytes E)) .error_exit .default_type_handler,
            .raise_error, .error_exit, .exit 1] } := by
      show exec E (E.entry (E.malloc (heap_bytes E))) _ = _
      rw [hp]; rfl
    rw [main_of_exit E argc argv process_start 1 _ hce]
    exact ⟨_, rfl, rfl, rfl, rfl, rfl, rfl⟩

/-- Example for C3: a program that calls `raise_error` at once. -/
theorem main_raise_default_witness :
    ∃ s, main (image (.raise_error (.ret 7)) malloc_ok) 0 [] process_start = .exit 1 s
      ∧ (main (image (.raise_error (.ret 7)) malloc_ok) 0 [] process_start).status = some 1
      ∧ s.stdout = ['e', 'r', 'r', '\n']
      ∧ s.trace = [.malloc 80000 (some 4096),
          .entry (some 4096) .error_exit .default_type_handler,
          .raise_error, .error_exit, .exit 1]
      ∧ s.trace.filter Event.is_print_result = []
      ∧ s.trace.filter Event.is_putchar = [] :=
  main_raise_default (image (.raise_error (.ret 7)) malloc_ok) 0 []
    (by decide) (by decide) (by decide)

/-- C5: `raise_error` calls whatever procedure the `error_handler` slot holds at
the time of the call.  So once the slot holds `h`, a call of `raise_error`, also
one made by the compiled program, does exactly what the call `h()` does, and
when `h` is not the default, `error_exit` is not entered. -/
theorem raise_error_dispatch (E : Externals) (s : State) (h : FnPtr)
    (hs : s.error_handler = h) :
    raise_error E s = call E h (s.log .raise_error)
      ∧ (∀ k, exec E (.raise_error k) s =
          match call E h (s.log .raise_error) with
          | .ret _ s1 => exec E k s1
          | .exit n s1 => .exit n s1
          | .fault s1 => .fault s1)
      ∧ (h ≠ .error_exit →
          (raise_error E s).state.trace.filter Event.is_error_exit
            = s.trace.filter Event.is_error_exit) := by
  subst hs
  refine ⟨rfl, fun k => ?_, fun hne => ?_⟩
  · have hr : raise_error E s = call E s.error_handler (s.log .raise_error) := rfl
    simp only [exec, hr]
  have hex : ∀ (b : Proc) (s0 : State),
      (run_proc b s0).state.trace.filter Event.is_error_exit
        = s0.trace.filter Event.is_error_exit := by
    intro b s0
    obtain ⟨t, ht, hall⟩ := run_proc_trace b s0
    rw [ht, List.filter_append]
    have : t.filter Event.is_error_exit = [] := by
      rw [List.filter_eq_nil_iff]
      intro e he
      obtain ⟨n, rfl⟩ := hall e he
      simp [Event.is_error_exit]
    rw [this, List.append_nil]
  cases hh : s.error_handler with
  | null => simp [raise_error, hh, call, Outcome.state, Event.is_error_exit]
  | error_exit => exact absurd hh hne
  | default_type_handler => simp [raise_error, hh, call, hex, Event.is_error_exit]
  | other a => simp [raise_error, hh, call, hex, Event.is_error_exit]

/-- Example for C5: the slot holds the procedure at address 0, which returns at
once; `raise_error` then returns as well and `error_exit` is not entered. -/
theorem raise_error_dispatch_witness :
    raise_error (image (.ret 7) malloc_ok) { process_start with error_handler := .other 0 }
        = call (image (.ret 7) malloc_ok) (.other 0)
            (State.log { process_start with error_handler := .other 0 } .raise_error)
      ∧ (raise_error (image (.ret 7) malloc_ok)
            { process_start with error_handler := .other 0 }).state.trace.filter
              Event.is_error_exit = [] :=
  ⟨(raise_error_dispatch (image (.ret 7) malloc_ok)
      { process_start with error_handler := .other 0 } (.other 0) rfl).1,
   (raise_error_dispatch (image (.ret 7) malloc_ok)
      { process_start with error_handler := .other 0 } (.other 0) rfl).2.2 (by decide)⟩

/-- Counterexample to C6: `malloc` fails, yet the run does not abort: `entry` is
invoked with the null arena and `main` returns 0. -/
theorem main_null_arena_example :
    (main (image (.ret 7) malloc_fail) 0 [] process_start).status = some 0
      ∧ Event.entry none .error_exit .default_type_handler
          ∈ (main (image (.ret 7) malloc_fail) 0 [] process_start).state.trace := by
  decide

/-- C6, amended: `main` does not test the result of `malloc`.  When `heap_size`
is a number `n` whose product `8 * n` overflows neither the type it is computed
in nor `size_t`, every run makes one request, of `8 * n` bytes (`n` slots of 8
bytes), and invokes `entry` once with exactly what `malloc` returned for it, be
it a block or the null pointer. -/
theorem main_arena_unchecked (E : Externals) (argc : Int) (argv : List String)
    (n : Nat) (hn : E.heap_size = n)
    (hfit : E.heap_size_type.times_int.represents (8 * n) = true)
    (h64 : 8 * n < 2 ^ 64) :
    (main E argc argv process_start).state.trace.filter Event.is_malloc
        = [.malloc (8 * n) (E.malloc (8 * n))]
      ∧ (main E argc argv process_start).state.trace.filter Event.is_entry
        = [.entry (E.malloc (8 * n)) .error_exit .default_type_handler] := by
  rw [← heap_bytes_of_represents E n hn hfit h64]
  exact ⟨main_filter_malloc E argc argv, main_filter_entry E argc argv⟩

/-- Example for C6, amended: 10000 slots, a failing allocator. -/
theorem main_arena_unchecked_witness :
    (main (image (.ret 7) malloc_fail) 0 [] process_start).state.trace.filter Event.is_malloc
        = [.malloc (8 * 10000) none]
      ∧ (main (image (.ret 7) malloc_fail) 0 [] process_start).state.trace.filter
          Event.is_entry = [.entry none .error_exit .default_type_handler] :=
  main_arena_unchecked (image (.ret 7) malloc_fail) 0 [] 10000 rfl (by decide) (by decide)

/-- C7: in no run of `main` is `free` called twice or followed by anything, and
in a run in which `entry` returns normally the log ends with `print_result` of
the result, `val_typeof` of the result, the optional `putchar` and then the one
call of `free`, on the very block that `malloc` returned and `entry` was given. -/
theorem main_free_last (E : Externals) (argc : Int) (argv : List String) :
    ((main E argc argv process_start).state.trace.filter Event.is_free = []
        ∨ ∃ t, (main E argc argv process_start).state.trace
              = t ++ [.free (E.malloc (heap_bytes E))]
            ∧ t.filter Event.is_free = [])
      ∧ ∀ v s1, call_entry E (main_setup E process_start) = .ret v s1 →
          ∃ t, s1.trace
              = [.malloc (heap_bytes E) (E.malloc (heap_bytes E)),
                 .entry (E.malloc (heap_bytes E)) .error_exit .default_type_handler] ++ t
            ∧ t.all Event.by_entry = true
            ∧ (main E argc argv process_start).state.trace
              = s1.trace ++ [.print_result v, .val_typeof v]
                ++ (if E.val_typeof v ≠ E.T_VOID then [.putchar '\n'] else [])
                ++ [.free (E.malloc (heap_bytes E))]
            ∧ (main E argc argv process_start).state.trace.filter Event.is_free
              = [.free (E.malloc (heap_bytes E))] := by
  have hby : ∀ e : Event, e.by_entry = true → e.is_free = false := by
    intro e; cases e <;> simp [Event.by_entry, Event.is_free]
  have hpre := call_entry_filter E Event.is_free hby (fun _ _ => rfl) (fun _ _ _ => rfl)
  constructor
  · obtain ⟨t, fin, ht, hall, hfin⟩ := main_trace_shape E argc argv
    have hft := filter_by_entry _ hby t hall
    rcases hfin with rfl | ⟨v, rfl⟩
    · left
      rw [ht]
      simp [List.filter_cons, Event.is_free, hft]
    · right
      refine ⟨.malloc (heap_bytes E) (E.malloc (heap_bytes E))
          :: .entry (E.malloc (heap_bytes E)) .error_exit .default_type_handler
          :: (t ++ ([.print_result v, .val_typeof v]
            ++ (if E.val_typeof v ≠ E.T_VOID then [.putchar '\n'] else []))), ?_, ?_⟩
      · rw [ht]; simp
      · by_cases hv : E.val_typeof v = E.T_VOID <;>
          simp [List.filter_cons, Event.is_free, hft, hv]
  · intro v s1 hret
    obtain ⟨t, ht, hall⟩ := call_entry_trace E (main_setup E process_start)
    have hh := call_entry_heap E (main_setup E process_start)
    rw [hret] at ht hh hpre
    simp only [Outcome.state] at ht hh hpre
    rw [main_setup_start] at ht hh
    refine ⟨t, by simpa using ht, by simpa using hall, ?_, ?_⟩
    · rw [main_of_ret E argc argv process_start v s1 hret]
      simp [Outcome.state, hh]
    · rw [main_of_ret E argc argv process_start v s1 hret]
      by_cases hv : E.val_typeof v = E.T_VOID <;>
        simp [Outcome.state, hh, hpre, List.filter_cons, Event.is_free, hv]

/-- Example for C7: a program that writes one byte and returns 7. -/
theorem main_free_last_witness :
    ∃ t, ([.malloc 80000 (some 4096), .entry (some 4096) .error_exit .default_type_handler,
            .write_byte 'x'] : List Event)
          = [.malloc 80000 (some 4096),
             .entry (some 4096) .error_exit .default_type_handler] ++ t
      ∧ t.all Event.by_entry = true
      ∧ (main (image (.write_byte 'x' (.ret 7)) malloc_ok) 0 [] process_start).state.trace
          = [.malloc 80000 (some 4096), .entry (some 4096) .error_exit .default_type_handler,
              .write_byte 'x'] ++ [.print_result 7, .val_typeof 7]
            ++ [.putchar '\n'] ++ [.free (some 4096)]
      ∧ (main (image (.write_byte 'x' (.ret 7)) malloc_ok) 0 []
            process_start).state.trace.filter Event.is_free = [.free (some 4096)] :=
  (main_free_last (image (.write_byte 'x' (.ret 7)) malloc_ok) 0 []).2 7 _ rfl

/-- Counterexample to C8: the program writes `x` and then calls `raise_error`; the
output of the run is `x` followed by the failure token, not the token alone. -/
theorem error_exit_output_kept_example :
    (main (image (.write_byte 'x' (.raise_error (.ret 7))) malloc_ok) 0 []
        process_start).status = some 1
      ∧ (main (image (.write_byte 'x' (.raise_error (.ret 7))) malloc_ok) 0 []
          process_start).state.stdout = ['x', 'e', 'r', 'r', '\n']
      ∧ (main (image (.write_byte 'x' (.raise_error (.ret 7))) malloc_ok) 0 []
          process_start).state.stdout ≠ ['e', 'r', 'r', '\n'] := by
  decide

/-- C8, amended: `error_exit` keeps what was written before it is invoked: it
appends `err` and a newline to it and ends the process with status 1, whatever
was written before. -/
theorem error_exit_appends (s : State) :
    ∃ s1, error_exit s = .exit 1 s1
      ∧ s1.stdout = s.stdout ++ ['e', 'r', 'r', '\n']
      ∧ s1.trace = s.trace ++ [.error_exit, .exit 1] :=
  ⟨_, error_exit_eq s, rfl, rfl⟩

/-- Outside the contract of handlers: when the slot holds a procedure that
returns, `raise_error` returns too, as its body hands back whatever the handler
does. -/
theorem raise_error_returns_outside_contract :
    (image (.ret 7) malloc_ok).diverts (.other 0) = false
      ∧ ∃ s, raise_error (image (.ret 7) malloc_ok)
          { process_start with error_handler := .other 0 } = .ret () s :=
  ⟨rfl, _, rfl⟩

/-- C10: in a run in which `entry` returns normally, `val_typeof` is called
exactly once, on the value that `entry` returned and `print_result` rendered,
and its result only decides whether the one `putchar` of a newline happens:
that happens exactly when the tag is not `T_VOID`, and nothing else in the
final state depends on the tag. -/
theorem main_val_typeof_once (E : Externals) (argc : Int) (argv : List String)
    (v : val_t) (s1 : State)
    (hret : call_entry E (main_setup E process_start) = .ret v s1) :
    ∃ s, main E argc argv process_start = .ret 0 s
      ∧ s.trace.filter Event.is_val_typeof = [.val_typeof v]
      ∧ s.trace.filter Event.is_print_result = [.print_result v]
      ∧ s.trace.filter Event.is_putchar
          = (if E.val_typeof v ≠ E.T_VOID then [.putchar '\n'] else [])
      ∧ s.trace = s1.trace ++ [.print_result v, .val_typeof v]
          ++ (if E.val_typeof v ≠ E.T_VOID then [.putchar '\n'] else [])
          ++ [.free s1.heap]
      ∧ s.stdout = s1.stdout ++ E.print_result v
          ++ (if E.val_typeof v ≠ E.T_VOID then ['\n'] else [])
      ∧ s.heap = s1.heap ∧ s.error_handler = s1.error_handler
      ∧ s.type_error_handler = s1.type_error_handler ∧ s.in_ = s1.in_ ∧ s.out = s1.out := by
  have hby1 : ∀ e : Event, e.by_entry = true → e.is_val_typeof = false := by
    intro e; cases e <;> simp [Event.by_entry, Event.is_val_typeof]
  have hby2 : ∀ e : Event, e.by_entry = true → e.is_print_result = false := by
    intro e; cases e <;> simp [Event.by_entry, Event.is_print_result]
  have hby3 : ∀ e : Event, e.by_entry = true → e.is_putchar = false := by
    intro e; cases e <;> simp [Event.by_entry, Event.is_putchar]
  have h1 := call_entry_filter E Event.is_val_typeof hby1 (fun _ _ => rfl) (fun _ _ _ => rfl)
  have h2 := call_entry_filter E Event.is_print_result hby2 (fun _ _ => rfl) (fun _ _ _ => rfl)
  have h3 := call_entry_filter E Event.is_putchar hby3 (fun _ _ => rfl) (fun _ _ _ => rfl)
  rw [hret] at h1 h2 h3
  simp only [Outcome.state] at h1 h2 h3
  rw [main_of_ret E argc argv process_start v s1 hret]
  refine ⟨_, rfl, ?_, ?_, ?_, rfl, rfl, rfl, rfl, rfl, rfl, rfl⟩
  · by_cases hv : E.val_typeof v = E.T_VOID <;>
      simp [h1, List.filter_cons, Event.is_val_typeof, hv]
  · by_cases hv : E.val_typeof v = E.T_VOID <;>
      simp [h2, List.filter_cons, Event.is_print_result, hv]
  · by_cases hv : E.val_typeof v = E.T_VOID <;>
      simp [h3, List.filter_cons, Event.is_putchar, hv]

/-- Example for C10: a program that returns the non-void value 7. -/
theorem main_val_typeof_once_witness :
    ∃ s, main (image (.ret 7) malloc_ok) 0 [] process_start = .ret 0 s
      ∧ s.trace.filter Event.is_val_typeof = [.val_typeof 7]
      ∧ s.trace.filter Event.is_print_result = [.print_result 7]
      ∧ s.trace.filter Event.is_putchar = [.putchar '\n'] := by
  obtain ⟨s, h0, h1, h2, h3, -⟩ :=
    main_val_typeof_once (image (.ret 7) malloc_ok) 0 [] 7 _ rfl
  exact ⟨s, h0, h1, h2, h3⟩

end Kerfuffle
